import Mathlib

/-!
Shallow embedding of the editing core of the `wind` terminal text editor
(crates/view/src/document.rs, crates/view/src/editor.rs,
crates/view/src/position.rs, crates/view/src/boundaries.rs).

Conventions of the embedding:
* `usize` is modelled as `Nat`.  Rust's `saturating_sub` coincides with
  truncated `Nat` subtraction, so it is written `-`.  A *plain* Rust
  subtraction (`a - b`, `a -= b`) panics on underflow in debug builds and
  wraps in release builds; either way the operation does not return the
  clamped value, so it is modelled by `checkedSub`, which yields `none`
  exactly when the Rust subtraction underflows.  Plain additions are kept
  as `Nat` addition: they overflow only for values on the order of 2^64,
  and every concrete input used below is tiny.
* A Rust `String` holding a row is modelled as its list of code points
  (`List Char`).  Byte positions are recovered from the UTF-8 width of
  each code point, so `String::insert`/`String::remove`, which take byte
  indices and panic off a char boundary, are modelled exactly
  (`stringInsert`/`stringRemove`).
* `unicode-segmentation`'s `graphemes(true)` (UAX #29 extended grapheme
  clusters) is modelled by `clusters`, a simplified segmentation carrying
  the rules the claims exercise: a cluster is extended by Extend-class
  combining marks, variation selectors and ZWJ, and by a regional
  indicator following a lone regional indicator (flag pairs).  For ASCII
  text every code point is its own cluster, as in the real segmenter.
  `graphemes(true).count()` is `clusterCount`, `take(n)`/`skip(n)` of the
  cluster iterator are `takeClusters`/`dropClusters`, and collecting all
  graphemes back into a `String` is the identity (`clusters_flatten`).
* Operations that can panic (`Vec::remove`/`Vec::insert` out of range,
  `Option::unwrap` on `None`, `String::insert`/`String::remove` at a
  non-boundary or out-of-range byte index, plain integer subtraction)
  return `Option`; `none` is a panic.
-/

namespace Wind

/-- Plain (non-saturating) `usize` subtraction: `none` when the Rust
subtraction `a - b` would underflow (panic in debug, wrap in release). -/
def checkedSub (a b : Nat) : Option Nat :=
  if b ≤ a then some (a - b) else none

/-- Insertion of an element before index `i` of a sequence: `Vec::insert`
for the rows vector (whose call site below is in bounds, `i ≤ length`,
where this agrees with the Rust operation), and the insertion step of
`stringInsert` once the byte index has been resolved to a position. -/
def vecInsert (l : List α) (i : Nat) (a : α) : List α :=
  l.take i ++ a :: l.drop i

/-- `Vec::remove i`: returns the removed element and the remaining vector;
`none` (panic) when `i` is out of bounds. -/
def vecRemove (l : List α) (i : Nat) : Option (α × List α) :=
  match l.get? i with
  | some a => some (a, l.take i ++ l.drop (i + 1))
  | none => none

/-- Rust `char::len_utf8`: the number of bytes of the code point's UTF-8
encoding. -/
def lenUtf8 (c : Char) : Nat :=
  if c.toNat < 0x80 then 1
  else if c.toNat < 0x800 then 2
  else if c.toNat < 0x10000 then 3
  else 4

/-- Translate a byte index into a string (given as its code points) to a
code-point position: `some p` when the byte index is the boundary in front
of the `p`-th code point (or the end of the string), `none` when it falls
inside a code point's encoding or past the end.  This is the boundary
check `String::insert`/`String::remove` perform on their byte index. -/
def boundaryPos? : List Char → Nat → Option Nat
  | _, 0 => some 0
  | [], _ + 1 => none
  | c :: cs, i + 1 =>
    if i + 1 < lenUtf8 c then none
    else (boundaryPos? cs (i + 1 - lenUtf8 c)).map (· + 1)

/-- Rust `String::insert(idx, ch)`: `idx` is a byte index; panics (`none`)
when it is not a char boundary or lies past the end. -/
def stringInsert (s : List Char) (i : Nat) (ch : Char) : Option (List Char) :=
  (boundaryPos? s i).map fun p => vecInsert s p ch

/-- Rust `String::remove(idx)`: removes the single code point starting at
byte index `idx`; panics (`none`) when `idx` is not a char boundary or is
at or past the end. -/
def stringRemove (s : List Char) (i : Nat) : Option (List Char) :=
  match boundaryPos? s i with
  | some p => if p < s.length then some (s.take p ++ s.drop (p + 1)) else none
  | none => none

/-- Extend-class code points of the simplified segmentation: combining
diacritical marks (and their extensions/supplement), combining marks for
symbols, variation selectors, and the zero-width joiner. -/
def isExtend (c : Char) : Bool :=
  (0x300 ≤ c.toNat && c.toNat ≤ 0x36F) ||
  (0x1AB0 ≤ c.toNat && c.toNat ≤ 0x1AFF) ||
  (0x1DC0 ≤ c.toNat && c.toNat ≤ 0x1DFF) ||
  (0x20D0 ≤ c.toNat && c.toNat ≤ 0x20FF) ||
  (0xFE00 ≤ c.toNat && c.toNat ≤ 0xFE0F) ||
  c.toNat == 0x200D

/-- Regional-indicator code points (U+1F1E6–U+1F1FF). -/
def isRI (c : Char) : Bool :=
  0x1F1E6 ≤ c.toNat && c.toNat ≤ 0x1F1FF

/-- Does code point `c` extend the current cluster `cur` instead of
starting a new one?  Extend-class characters always attach; a regional
indicator attaches exactly when the current cluster is a single, still
unpaired regional indicator (UAX #29 GB12/GB13). -/
def extendsCluster (cur : List Char) (c : Char) : Bool :=
  isExtend c ||
  (isRI c &&
    match cur with
    | [r] => isRI r
    | _ => false)

/-- Left-to-right segmentation: `cur` is the cluster under construction. -/
def clustersGo (cur : List Char) : List Char → List (List Char)
  | [] => [cur]
  | c :: cs =>
    if extendsCluster cur c then clustersGo (cur ++ [c]) cs
    else cur :: clustersGo [c] cs

/-- The extended grapheme clusters of a string — the model of
`unicode-segmentation`'s `graphemes(true)` iterator. -/
def clusters : List Char → List (List Char)
  | [] => []
  | c :: cs => clustersGo [c] cs

/-- `graphemes(true).count()`. -/
def clusterCount (s : List Char) : Nat :=
  (clusters s).length

/-- `graphemes(true).take(n).collect()`. -/
def takeClusters (n : Nat) (s : List Char) : List Char :=
  ((clusters s).take n).flatten

/-- `graphemes(true).skip(n).collect()`. -/
def dropClusters (n : Nat) (s : List Char) : List Char :=
  ((clusters s).drop n).flatten

/-- position.rs: `PositionHistory { row, column }`. -/
structure PositionHistory where
  row : Nat
  column : Nat
deriving DecidableEq, Repr

/-- position.rs: `Position { row, column, history }`. -/
structure Position where
  row : Nat
  column : Nat
  history : PositionHistory
deriving DecidableEq, Repr

/-- boundaries.rs: `Boundaries { width: u16, height: u16 }` (the code only
uses them widened to `usize`). -/
structure Boundaries where
  width : Nat
  height : Nat
deriving DecidableEq, Repr

/-- document.rs: `Row { content: String, len: usize }`; `content` is the
code-point list, `len` the cached cluster count. -/
structure Row where
  content : List Char
  len : Nat
deriving DecidableEq, Repr

/-- document.rs: `Row::update_len` — recount the content's grapheme
clusters into the cache. -/
def Row.update_len (r : Row) : Row :=
  { r with len := clusterCount r.content }

/-- document.rs: `Row::from(String)` — build a row and update its length. -/
def Row.ofContent (s : List Char) : Row :=
  { content := s, len := clusterCount s }

/-- document.rs: `Row::split(at)` — via `graphemes(true)` take/skip: the
receiver keeps clusters `[0, at)` (first component) and a new row holding
`[at, len)` is returned (second component). -/
def Row.split (r : Row) (i : Nat) : Row × Row :=
  (Row.update_len { r with content := takeClusters i r.content },
   Row.ofContent (dropClusters i r.content))

/-- document.rs: `Document { path, rows, modified }`.  A `PathBuf` is an
opaque string. -/
structure Document where
  path : Option (List Char)
  rows : List Row
  modified : Bool
deriving DecidableEq, Repr

/-- document.rs: `Document::row_len(index)` — the cached cluster count of
row `index`, or `0` when out of bounds. -/
def Document.row_len (d : Document) (index : Nat) : Nat :=
  match d.rows.get? index with
  | some row => row.len
  | none => 0

/-- The code-point content of row `i` (for stating theorems; out of bounds
is the empty list). -/
def Document.row_content (d : Document) (i : Nat) : List Char :=
  match d.rows.get? i with
  | some row => row.content
  | none => []

/-- The file system seen by `Document::open`: for each path, `some lines`
when a file exists there, giving its content as the list of lines produced
by `BufRead::lines` (newline terminators stripped; an empty file has zero
lines), and `none` when no file exists at the path.  I/O and decoding
errors are not modelled: the claims about `open` concern successful runs. -/
def FileSystem := List Char → Option (List (List Char))

/-- document.rs: `Document::open(file_path)` (successful runs).  When the
path is present and the file exists, one `Row` is pushed per line; when the
path is absent or the file does not exist, a single default (empty) row is
pushed. -/
def Document.open (fs : FileSystem) (file_path : Option (List Char)) : Document :=
  match file_path with
  | some p =>
    match fs p with
    | some ls => { path := some p, rows := ls.map Row.ofContent, modified := false }
    | none => { path := some p, rows := [Row.ofContent []], modified := false }
  | none => { path := none, rows := [Row.ofContent []], modified := false }

/-- document.rs: `Document::insert_new_line(at)` — split the row at the
cursor column and insert the remainder as a new row right after; `none`
when `at.row` is out of bounds (the `unwrap` panics). -/
def Document.insert_new_line (d : Document) (p : Position) : Option Document :=
  match d.rows.get? p.row with
  | none => none
  | some row =>
    let pair := row.split p.column
    some { d with
           modified := true,
           rows := vecInsert (d.rows.set p.row pair.1) (p.row + 1) pair.2 }

/-- document.rs: `Document::insert(at, ch)` — a line break delegates to
`insert_new_line`; otherwise `row.content.insert(at.column, ch)` treats
the cursor column as a *byte* index into the row's string and the cached
length is then recounted (`row.update_len()`).  `none` when `at.row` is
out of bounds (the `unwrap` panics) or when `at.column` is not a char
boundary or lies past the end (`String::insert` panics). -/
def Document.insert (d : Document) (p : Position) (ch : Char) : Option Document :=
  if ch = '\n' then d.insert_new_line p
  else
    match d.rows.get? p.row with
    | none => none
    | some row =>
      match stringInsert row.content p.column ch with
      | none => none
      | some content' =>
        some { d with
               modified := true,
               rows := d.rows.set p.row (Row.update_len { row with content := content' }) }

/-- document.rs: `Document::delete(at)`.  When the column equals the row's
cached length and the row is not the last one, the next row is removed and
the two rows' grapheme iterators are chained and collected — collecting
every cluster in order is the concatenation of the two code-point strings
— after which `update_len` *recounts* the result (clusters can merge at
the seam).  Otherwise the row's graphemes are collected back into a string
(the identity, by `clusters_flatten`) and `String::remove(at.column)` removes
the single code point at that *byte* index.  `none` models the panics:
`at.row` out of bounds, `at.column` not a boundary or at/past the end in
the removal branch (`String::remove` panics, including on an empty row),
and an empty `rows` vector (`rows.len() - 1` underflows).  The merge guard
`at.row < rows.len() - 1` is written `at.row + 1 < rows.length`, which
agrees with the Rust guard whenever `rows` is non-empty; when `rows` is
empty both the Rust code and this model fail. -/
def Document.delete (d : Document) (p : Position) : Option Document :=
  if p.column = d.row_len p.row ∧ p.row + 1 < d.rows.length then
    match vecRemove d.rows (p.row + 1) with
    | none => none
    | some (next_row, rest) =>
      match rest.get? p.row with
      | none => none
      | some row =>
        some { d with
               modified := true,
               rows := rest.set p.row
                 (Row.update_len { row with content := row.content ++ next_row.content }) }
  else
    match d.rows.get? p.row with
    | none => none
    | some row =>
      match stringRemove row.content p.column with
      | none => none
      | some content' =>
        some { d with
               modified := true,
               rows := d.rows.set p.row (Row.update_len { row with content := content' }) }

/-- editor.rs: `EditorStatus`. -/
inductive EditorStatus where
  | Message : List Char → EditorStatus
  | Exit : EditorStatus
  | None : EditorStatus
deriving DecidableEq, Repr

/-- editor.rs: `EditorMode`. -/
inductive EditorMode where
  | Normal : EditorMode
  | Insert : EditorMode
deriving DecidableEq, Repr

/-- editor.rs: `Editor`. -/
structure Editor where
  document : Document
  position : Position
  scroll_offset : Position
  status : EditorStatus
  mode : EditorMode
deriving DecidableEq, Repr

/-- editor.rs: `Editor::move_up(boundaries, offset)`.  The scroll row uses
`saturating_sub`, but `self.position.row -= offset` is a plain subtraction:
`none` when it underflows.  In the right-overflow branch the guard gives
`column ≥ width`, so `column - width + 1` cannot underflow and truncated
subtraction agrees with Rust. -/
def Editor.move_up (e : Editor) (boundaries : Boundaries) (offset : Nat) : Option Editor :=
  if e.position.row > 0 then
    let scroll_row :=
      if e.position.row ≤ e.scroll_offset.row then e.scroll_offset.row - offset
      else e.scroll_offset.row
    match checkedSub e.position.row offset with
    | none => none
    | some new_row =>
      let new_col := min e.position.history.column (e.document.row_len new_row)
      let scroll_col :=
        if new_col < e.scroll_offset.column then 0
        else if new_col ≥ e.scroll_offset.column + boundaries.width then
          new_col - boundaries.width + 1
        else e.scroll_offset.column
      some { e with
             position := { row := new_row, column := new_col, history := e.position.history },
             scroll_offset := { e.scroll_offset with row := scroll_row, column := scroll_col } }
  else some e

/-- editor.rs: `Editor::move_down(boundaries, offset)`.  The outer guard is
`row.saturating_add(offset) < rows.len()`; the scroll test computes
`scroll_offset.row + height - offset` with a plain subtraction, so it is
`none` when that underflows. -/
def Editor.move_down (e : Editor) (boundaries : Boundaries) (offset : Nat) : Option Editor :=
  if e.position.row + offset < e.document.rows.length then
    match checkedSub (e.scroll_offset.row + boundaries.height) offset with
    | none => none
    | some threshold =>
      let scroll_row :=
        if e.position.row ≥ threshold then e.scroll_offset.row + offset
        else e.scroll_offset.row
      let new_row := e.position.row + offset
      let new_col := min e.position.history.column (e.document.row_len new_row)
      let scroll_col :=
        if new_col < e.scroll_offset.column then 0
        else if new_col ≥ e.scroll_offset.column + boundaries.width then
          new_col - boundaries.width + 1
        else e.scroll_offset.column
      some { e with
             position := { row := new_row, column := new_col, history := e.position.history },
             scroll_offset := { e.scroll_offset with row := scroll_row, column := scroll_col } }
  else some e

/-- editor.rs: `Editor::move_left(boundaries, offset)`.  In the
`column > 0` branch both subtractions are `saturating_sub`.  In the
wrap-to-previous-row branch `position.row -= 1` is guarded by `row > 0`,
and the scroll column is set to `column + width - offset` with a plain
subtraction: `none` when that underflows. -/
def Editor.move_left (e : Editor) (boundaries : Boundaries) (offset : Nat) : Option Editor :=
  if e.position.column > 0 then
    let new_col := e.position.column - offset
    let scroll_col :=
      if new_col < e.scroll_offset.column then new_col - boundaries.width
      else e.scroll_offset.column
    some { e with
           position := { e.position with
                         column := new_col,
                         history := { e.position.history with column := new_col } },
           scroll_offset := { e.scroll_offset with column := scroll_col } }
  else if offset ≠ 0 then
    let scroll_row :=
      if e.position.row = e.scroll_offset.row ∧ e.scroll_offset.row > 0 then
        e.scroll_offset.row - 1
      else e.scroll_offset.row
    if e.position.row > 0 then
      let new_row := e.position.row - 1
      let new_col := e.document.row_len new_row
      let scroll_col? :=
        if new_col ≥ e.scroll_offset.column + boundaries.width then
          checkedSub (new_col + boundaries.width) offset
        else some e.scroll_offset.column
      match scroll_col? with
      | none => none
      | some scroll_col =>
        some { e with
               position := { row := new_row, column := new_col,
                             history := { e.position.history with column := new_col } },
               scroll_offset := { e.scroll_offset with row := scroll_row, column := scroll_col } }
    else
      some { e with scroll_offset := { e.scroll_offset with row := scroll_row } }
  else some e

/-- editor.rs: `Editor::move_right(boundaries, offset)`.  The scroll-row
test uses `saturating_add`/`saturating_sub` throughout, and the row-advance
guard is `row.saturating_add(1) <= rows.len().saturating_sub(1)`; both are
truncated `Nat` arithmetic. -/
def Editor.move_right (e : Editor) (boundaries : Boundaries) (offset : Nat) : Option Editor :=
  let current_row_length := e.document.row_len e.position.row
  if e.position.column < current_row_length then
    let new_col := e.position.column + offset
    let scroll_col :=
      if new_col ≥ e.scroll_offset.column + boundaries.width then
        e.scroll_offset.column + offset
      else e.scroll_offset.column
    some { e with
           position := { e.position with
                         column := new_col,
                         history := { e.position.history with column := new_col } },
           scroll_offset := { e.scroll_offset with column := scroll_col } }
  else if offset ≠ 0 then
    let scroll_row :=
      if e.position.row ≥ e.scroll_offset.row + boundaries.height - offset ∧
          e.scroll_offset.row + boundaries.height < e.document.rows.length then
        e.scroll_offset.row + 1
      else e.scroll_offset.row
    if e.position.row + 1 ≤ e.document.rows.length - 1 then
      some { e with
             position := { row := e.position.row + 1, column := 0,
                           history := { e.position.history with column := 0 } },
             scroll_offset := { e.scroll_offset with row := scroll_row, column := 0 } }
    else
      some { e with scroll_offset := { e.scroll_offset with row := scroll_row } }
  else some e

/-- The four directional operations, indexed for uniform statements. -/
inductive MoveDir where
  | up | down | left | right
deriving DecidableEq, Repr

/-- Dispatch to the four `Editor` movement operations. -/
def Editor.moveDir (dir : MoveDir) (e : Editor) (b : Boundaries) (offset : Nat) :
    Option Editor :=
  match dir with
  | .up => e.move_up b offset
  | .down => e.move_down b offset
  | .left => e.move_left b offset
  | .right => e.move_right b offset

/-- The Row cache invariant of the data model: every row's cached cluster
count equals the cluster count of its content. -/
def Document.RowsWF (d : Document) : Prop :=
  ∀ row ∈ d.rows, row.len = clusterCount row.content

instance (d : Document) : Decidable d.RowsWF := by
  unfold Document.RowsWF; infer_instance

/-- Modelled from the spec: the key events consumed by the mode state
machine of spec §4.4.  The repository sources under inspection declare
`EditorMode` (editor.rs) and render it (painter.rs), but contain no code
that transitions it: the key-dispatch implementing §4.4 is missing, so it
is modelled here from the spec's transition table. -/
inductive Key where
  | char : Char → Key
  | enter : Key
  | escape : Key
  | backspace : Key
  | del : Key
  | arrow : MoveDir → Key
  | ctrlQ : Key
deriving DecidableEq, Repr

/-- Modelled from the spec: the mode state machine and key dispatch of
spec §4.4, absent from the repository sources under inspection (only the
`EditorMode` declaration and its rendering exist there).  Transitions:
`Normal --'i'--> Insert` with no document change; `Normal --'o'--> Insert`
inserting an empty row after the current row and moving the cursor down
onto it; `Normal --'O'--> Insert` inserting an empty row before the
current row and moving the cursor to its column 0; `Insert --Escape-->
Normal`; in `Insert`, printable characters and line breaks call
`Document.insert` at the cursor and advance the cursor right by one,
`Delete` calls `Document.delete` at the cursor, and `Backspace` away from
the document start moves left by one and deletes there; directional keys
move the cursor; Ctrl-q exits. -/
def Editor.handle_key (e : Editor) (b : Boundaries) (k : Key) : Option Editor :=
  match e.mode, k with
  | _, .ctrlQ => some { e with status := .Exit }
  | _, .arrow dir => Editor.moveDir dir e b 1
  | .Normal, .char c =>
    if c = 'i' then some { e with mode := .Insert }
    else if c = 'o' then
      some { e with
             mode := .Insert,
             document := { e.document with
               modified := true,
               rows := vecInsert e.document.rows (e.position.row + 1) (Row.ofContent []) },
             position := { row := e.position.row + 1
                           column := 0
                           history := { e.position.history with column := 0 } } }
    else if c = 'O' then
      some { e with
             mode := .Insert,
             document := { e.document with
               modified := true,
               rows := vecInsert e.document.rows e.position.row (Row.ofContent []) },
             position := { e.position with
                           column := 0
                           history := { e.position.history with column := 0 } } }
    else some e
  | .Normal, _ => some e
  | .Insert, .escape => some { e with mode := .Normal }
  | .Insert, .char c => do
    let d ← e.document.insert e.position c
    Editor.move_right { e with document := d } b 1
  | .Insert, .enter => do
    let d ← e.document.insert e.position '\n'
    Editor.move_right { e with document := d } b 1
  | .Insert, .del => do
    let d ← e.document.delete e.position
    pure { e with document := d }
  | .Insert, .backspace =>
    if e.position.row = 0 ∧ e.position.column = 0 then some e
    else do
      let e' ← e.move_left b 1
      let d ← e'.document.delete e'.position
      pure { e' with document := d }

/-- A 12-cluster single-row document: `["aaaaaaaaaaaa"]`. -/
def exDoc1 : Document :=
  { path := none,
    rows := [Row.ofContent ['a', 'a', 'a', 'a', 'a', 'a', 'a', 'a', 'a', 'a', 'a', 'a']],
    modified := false }

/-- A state whose cursor (row 0, column 11) is inside the viewport of
width 5 and height 3 anchored at scroll offset (0, 11). -/
def exEditor1 : Editor :=
  { document := exDoc1,
    position := { row := 0, column := 11, history := { row := 0, column := 11 } },
    scroll_offset := { row := 0, column := 11, history := { row := 0, column := 0 } },
    status := .None,
    mode := .Normal }

/-- A two-row document `["ab", "cd"]` with well-formed cached lengths. -/
def exDoc2 : Document :=
  { path := none,
    rows := [Row.ofContent ['a', 'b'], Row.ofContent ['c', 'd']],
    modified := false }

/-- A state on `exDoc2` with the cursor at row 1, column 0. -/
def exEditor2 : Editor :=
  { document := exDoc2,
    position := { row := 1, column := 0, history := { row := 0, column := 1 } },
    scroll_offset := { row := 0, column := 0, history := { row := 0, column := 0 } },
    status := .None,
    mode := .Normal }

/-- The 5×3 viewport used by the concrete instances. -/
def exB1 : Boundaries :=
  { width := 5, height := 3 }

/-- The state `Editor.move_left exEditor1 exB1 1` evaluates to: the cursor
moved to column 10 but the scroll offset jumped to column 5, so the cursor
sits one cell past the right edge of the width-5 viewport. -/
def exEditor1Res : Editor :=
  { document := exDoc1,
    position := { row := 0, column := 10, history := { row := 0, column := 10 } },
    scroll_offset := { row := 0, column := 5, history := { row := 0, column := 0 } },
    status := .None,
    mode := .Normal }

/-- The state `Editor.move_up exEditor2 exB1 1` evaluates to: the cursor
moved up onto row 0 and its column became `min 1 2 = 1`. -/
def exEditor2Up : Editor :=
  { document := exDoc2,
    position := { row := 0, column := 1, history := { row := 0, column := 1 } },
    scroll_offset := { row := 0, column := 0, history := { row := 0, column := 0 } },
    status := .None,
    mode := .Normal }

/-- A single-row document `["é"]`: one cluster, one code point, two UTF-8
bytes, with a correct cached length. -/
def exDocAccent : Document :=
  { path := none,
    rows := [Row.ofContent ['é']],
    modified := false }

/-- A two-row document `["🇦", "🇧"]`: each row is a single regional
indicator, hence a single cluster, with correct cached lengths. -/
def exDocFlags : Document :=
  { path := none,
    rows := [Row.ofContent ['🇦'], Row.ofContent ['🇧']],
    modified := false }

/-- The document `exDocFlags.delete` at `(0, 1)` evaluates to: the two
regional indicators land in one row and pair into a single flag cluster,
so the recounted length is 1, not `1 + 1`. -/
def exDocFlagsMerged : Document :=
  { path := none,
    rows := [Row.ofContent ['🇦', '🇧']],
    modified := true }

theorem checkedSub_eq_some {a b c : Nat} :
    checkedSub a b = some c ↔ b ≤ a ∧ c = a - b := by
  unfold checkedSub
  split <;> simp_all
  omega

theorem vecInsert_length (l : List α) (i : Nat) (a : α) (h : i ≤ l.length) :
    (vecInsert l i a).length = l.length + 1 := by
  simp [vecInsert]
  omega

theorem vecInsert_get?_lt (l : List α) (i j : Nat) (a : α) (hj : j < i)
    (hi : i ≤ l.length) : (vecInsert l i a).get? j = l.get? j := by
  simp only [vecInsert, List.get?_eq_getElem?]
  rw [List.getElem?_append_left (by simp; omega), List.getElem?_take]
  simp [hj]

theorem vecInsert_get?_self (l : List α) (i : Nat) (a : α) (hi : i ≤ l.length) :
    (vecInsert l i a).get? i = some a := by
  have hlen : (l.take i).length = i := by simp; omega
  simp only [vecInsert, List.get?_eq_getElem?]
  rw [List.getElem?_append_right (by omega)]
  simp [hlen]

theorem vecRemove_eq (l : List α) (i : Nat) (x : α) (h : l.get? i = some x) :
    vecRemove l i = some (x, l.take i ++ l.drop (i + 1)) := by
  unfold vecRemove
  rw [h]

theorem mem_vecInsert {c a : α} {s : List α} {i : Nat}
    (h : c ∈ vecInsert s i a) : c = a ∨ c ∈ s := by
  unfold vecInsert at h
  rcases List.mem_append.mp h with h1 | h2
  · exact Or.inr (List.take_subset i s h1)
  · rcases List.mem_cons.mp h2 with h3 | h4
    · exact Or.inl h3
    · exact Or.inr (List.drop_subset i s h4)

/-- Flattening the clusters built from `cur` onwards restores the text:
the segmentation never loses or duplicates a code point. -/
theorem clustersGo_flatten (l : List Char) :
    ∀ cur, (clustersGo cur l).flatten = cur ++ l := by
  induction l with
  | nil =>
    intro cur
    simp [clustersGo]
  | cons c cs ih =>
    intro cur
    unfold clustersGo
    split
    · rw [ih (cur ++ [c])]
      simp
    · simp only [List.flatten_cons, ih [c]]
      simp

/-- Collecting every grapheme cluster back into a string is the identity. -/
theorem clusters_flatten (s : List Char) : (clusters s).flatten = s := by
  cases s with
  | nil => rfl
  | cons c cs => simpa using clustersGo_flatten cs [c]

theorem takeClusters_append_dropClusters (n : Nat) (s : List Char) :
    takeClusters n s ++ dropClusters n s = s := by
  unfold takeClusters dropClusters
  rw [← List.flatten_append, List.take_append_drop, clusters_flatten]

theorem isExtend_ascii (c : Char) (h : c.toNat < 128) : isExtend c = false := by
  unfold isExtend
  simp
  omega

theorem isRI_ascii (c : Char) (h : c.toNat < 128) : isRI c = false := by
  unfold isRI
  simp
  omega

theorem extendsCluster_ascii (cur : List Char) (c : Char) (h : c.toNat < 128) :
    extendsCluster cur c = false := by
  unfold extendsCluster
  rw [isExtend_ascii c h, isRI_ascii c h]
  simp

/-- On ASCII text, every code point is its own cluster. -/
theorem clustersGo_ascii (l : List Char) (hl : ∀ c ∈ l, c.toNat < 128) :
    ∀ cur, clustersGo cur l = cur :: l.map (fun c => [c]) := by
  induction l with
  | nil =>
    intro cur
    simp [clustersGo]
  | cons c cs ih =>
    intro cur
    unfold clustersGo
    rw [extendsCluster_ascii cur c (hl c (List.mem_cons_self c cs))]
    simp only [Bool.false_eq_true, if_false]
    rw [ih (fun x hx => hl x (List.mem_cons_of_mem c hx)) [c]]
    simp

/-- On ASCII text, the cluster count is the code-point count. -/
theorem clusterCount_ascii (s : List Char) (h : ∀ c ∈ s, c.toNat < 128) :
    clusterCount s = s.length := by
  cases s with
  | nil => rfl
  | cons c cs =>
    unfold clusterCount clusters
    dsimp only
    rw [clustersGo_ascii cs (fun x hx => h x (List.mem_cons_of_mem c hx)) [c]]
    simp

theorem lenUtf8_ascii (c : Char) (h : c.toNat < 128) : lenUtf8 c = 1 := by
  unfold lenUtf8
  rw [if_pos h]

/-- On ASCII text (one byte per code point), every byte index up to the
length is a boundary, at the code-point position equal to itself. -/
theorem boundaryPos?_ascii (s : List Char) (h : ∀ c ∈ s, c.toNat < 128) :
    ∀ i, i ≤ s.length → boundaryPos? s i = some i := by
  induction s with
  | nil =>
    intro i hi
    have h0 : i = 0 := Nat.le_zero.mp hi
    subst h0
    rfl
  | cons c cs ih =>
    intro i hi
    cases i with
    | zero => rfl
    | succ j =>
      unfold boundaryPos?
      rw [lenUtf8_ascii c (h c (List.mem_cons_self c cs))]
      rw [if_neg (by omega)]
      simp only [Nat.add_sub_cancel]
      rw [ih (fun x hx => h x (List.mem_cons_of_mem c hx)) j
        (by simp only [List.length_cons] at hi; omega)]
      rfl

theorem stringInsert_ascii (s : List Char) (i : Nat) (ch : Char)
    (h : ∀ c ∈ s, c.toNat < 128) (hi : i ≤ s.length) :
    stringInsert s i ch = some (vecInsert s i ch) := by
  unfold stringInsert
  rw [boundaryPos?_ascii s h i hi]
  rfl

/-- Claim C1 (counter-evidence): the cursor-visibility invariant does not
hold after a directional move.  From the valid state `exEditor1` (cursor at
column 11, scroll column 11, width 5: cursor on the right edge of the
viewport), `move_left` with offset 1 moves the cursor to column 10 but sets
the horizontal scroll offset to `column - width = 5`, leaving the cursor at
the column `scroll + width` just outside the viewport, even though the
12-cluster row has scroll positions (for instance 6) that would display
column 10. -/
theorem move_left_exits_viewport :
    Editor.move_left exEditor1 exB1 1 = some exEditor1Res ∧
    ¬ (exEditor1Res.position.column <
        exEditor1Res.scroll_offset.column + exB1.width) ∧
    (∃ s, s ≤ exEditor1Res.position.column ∧
      exEditor1Res.position.column < s + exB1.width ∧
      s + exB1.width ≤ exDoc1.row_len 0) :=
  ⟨by decide, by decide, 6, by decide, by decide, by decide⟩

/-- Claim C2 (counter-evidence): opening an existing empty file — a path
at which the file system holds a file with zero lines — produces a
document whose `rows` sequence is empty, not the single empty sentinel row
the claim requires (the `else` branch pushing `Row::default()` runs only
when the path is absent or the file does not exist). -/
theorem open_empty_file_yields_no_rows :
    (Document.open (fun _ => some []) (some ['a'])).rows = [] := rfl

/-- Claim C6 (counter-evidence): deleting at column 0 of an empty row that
is the last row is not a no-op: the code collects the row's clusters into
an empty string and calls `String::remove(0)` on it, which panics
(modelled as `none`). -/
theorem delete_on_empty_last_row_fails :
    Document.delete { path := none, rows := [Row.ofContent []], modified := false }
      { row := 0, column := 0, history := { row := 0, column := 0 } } = none := by
  decide

/-- Claim C7 (counter-evidence): `move_up` does not clamp the cursor row
at 0.  With the cursor on row 1 and offset 2, `self.position.row -= offset`
computes `1 - 2` on `usize` — a panic in debug builds, a wrap to `2^64 - 1`
in release builds — instead of saturating to 0 (modelled as `none`). -/
theorem move_up_offset_underflows :
    Editor.move_up exEditor2 exB1 2 = none := by
  decide

/-- `row_len` through a successful `rows.get?`. -/
theorem Document.row_len_get? (d : Document) (i : Nat) (row : Row)
    (h : d.rows.get? i = some row) : d.row_len i = row.len := by
  unfold Document.row_len
  rw [h]

/-- `row_content` through a successful `rows.get?`. -/
theorem Document.row_content_get? (d : Document) (i : Nat) (row : Row)
    (h : d.rows.get? i = some row) : d.row_content i = row.content := by
  unfold Document.row_content
  rw [h]

/-- Claim C3 (counterexample): every hypothesis of the claim holds — the
cached lengths are correct, row 0 is in bounds, the column 1 is at most
`row_length 0 = 1`, and `'x'` is printable — yet inserting into `["é"]` at
`(0, 1)` fails instead of growing the row by one cluster: the source
passes the column as a *byte* index to `String::insert`, and byte 1 falls
inside the two-byte encoding of `'é'`, so the insertion panics. -/
theorem insert_at_cluster_column_panics :
    exDocAccent.RowsWF ∧ 0 < exDocAccent.rows.length ∧ 1 ≤ exDocAccent.row_len 0 ∧
    exDocAccent.insert { row := 0, column := 1, history := { row := 0, column := 0 } }
      'x' = none := by
  decide

/-- Claim C3 (amended): for a document whose cached row lengths are
correct and whose row `r` consists of single-byte (ASCII) code points, a
row index in bounds, a column `c ≤ row_len r`, and an ASCII cluster that
is not a line break, `Document.insert` succeeds, increases `row_len r` by
exactly 1, and sets the modified flag.  (On non-ASCII rows the byte
indexing can panic mid-character, and a combining character can join an
existing cluster instead of adding one.) -/
theorem insert_printable_increases_row_len
    (d : Document) (r c : Nat) (hist : PositionHistory) (ch : Char)
    (hwf : d.RowsWF) (hr : r < d.rows.length) (hc : c ≤ d.row_len r)
    (hch : ch ≠ '\n') (hascii : ∀ c0 ∈ d.row_content r, c0.toNat < 128)
    (hchascii : ch.toNat < 128) :
    ∃ d', d.insert { row := r, column := c, history := hist } ch = some d' ∧
      d'.row_len r = d.row_len r + 1 ∧ d'.modified = true := by
  have hrow : d.rows.get? r = some (d.rows.get ⟨r, hr⟩) := List.get?_eq_get hr
  set row := d.rows.get ⟨r, hr⟩ with hrowdef
  have hlen : row.len = clusterCount row.content := hwf row (List.get?_mem hrow)
  have hrl : d.row_len r = row.len := Document.row_len_get? d r row hrow
  rw [Document.row_content_get? d r row hrow] at hascii
  have hcount : clusterCount row.content = row.content.length :=
    clusterCount_ascii _ hascii
  have hc' : c ≤ row.content.length := by omega
  unfold Document.insert
  rw [if_neg hch, hrow]
  dsimp only
  rw [stringInsert_ascii row.content c ch hascii hc']
  dsimp only
  refine ⟨_, rfl, ?_, rfl⟩
  have hget : (d.rows.set r
      (Row.update_len { row with content := vecInsert row.content c ch })).get? r =
      some (Row.update_len { row with content := vecInsert row.content c ch }) := by
    rw [List.get?_eq_getElem?]
    simp [List.getElem?_set_eq_of_lt, hr]
  rw [Document.row_len_get? _ r _ hget, hrl]
  have hallins : ∀ c0 ∈ vecInsert row.content c ch, c0.toNat < 128 := by
    intro c0 hm
    rcases mem_vecInsert hm with h1 | h2
    · rw [h1]
      exact hchascii
    · exact hascii c0 h2
  simp only [Row.update_len]
  rw [clusterCount_ascii _ hallins, vecInsert_length _ _ _ hc']
  omega

/-- Claim C4 (counterexample): with the two well-formed single-cluster
rows `["🇦", "🇧"]`, deleting at `(0, row_len 0)` merges them and shrinks
`rows` by one as claimed, but `update_len` recounts the graphemes of the
concatenated string and the two regional indicators pair into a single
flag cluster: the merged count is 1, not the sum `1 + 1 = 2`. -/
theorem delete_merge_seam_not_additive :
    exDocFlags.RowsWF ∧
    exDocFlags.delete ⟨0, exDocFlags.row_len 0, ⟨0, 0⟩⟩ = some exDocFlagsMerged ∧
    exDocFlagsMerged.rows.length + 1 = exDocFlags.rows.length ∧
    exDocFlagsMerged.row_len 0 = 1 ∧
    exDocFlags.row_len 0 + exDocFlags.row_len 1 = 2 := by
  decide

/-- Claim C4 (amended): for a document whose cached row lengths are
correct and a row `r` that is not the last row, deleting at
`(r, row_len r)` succeeds, merges row `r + 1` into row `r`, shrinks
`rows` by exactly one and sets the modified flag; the merged cluster
count equals the sum of the two original counts whenever both rows are
ASCII, so that no cluster can form across the seam. -/
theorem delete_at_row_end_merges
    (d : Document) (r : Nat) (hist : PositionHistory)
    (hwf : d.RowsWF) (hr : r + 1 < d.rows.length) :
    ∃ d', d.delete { row := r, column := d.row_len r, history := hist } = some d' ∧
      d'.rows.length + 1 = d.rows.length ∧
      d'.modified = true ∧
      ((∀ c ∈ d.row_content r, c.toNat < 128) →
        (∀ c ∈ d.row_content (r + 1), c.toNat < 128) →
        d'.row_len r = d.row_len r + d.row_len (r + 1)) := by
  have hr0 : r < d.rows.length := by omega
  have hrow : d.rows.get? r = some (d.rows.get ⟨r, hr0⟩) := List.get?_eq_get hr0
  have hnext : d.rows.get? (r + 1) = some (d.rows.get ⟨r + 1, hr⟩) := List.get?_eq_get hr
  set row := d.rows.get ⟨r, hr0⟩ with hrowdef
  set next := d.rows.get ⟨r + 1, hr⟩ with hnextdef
  have hlen : row.len = clusterCount row.content := hwf row (List.get?_mem hrow)
  have hlennext : next.len = clusterCount next.content := hwf next (List.get?_mem hnext)
  have hrl : d.row_len r = row.len := Document.row_len_get? d r row hrow
  have hrlnext : d.row_len (r + 1) = next.len := Document.row_len_get? d (r + 1) next hnext
  unfold Document.delete
  rw [if_pos ⟨rfl, hr⟩, vecRemove_eq d.rows (r + 1) next hnext]
  have hrest : (d.rows.take (r + 1) ++ d.rows.drop (r + 1 + 1)).get? r = some row := by
    rw [List.get?_eq_getElem?,
      List.getElem?_append_left (by simp [List.length_take]; omega),
      List.getElem?_take]
    rw [if_pos (Nat.lt_succ_self r), ← List.get?_eq_getElem?, hrow]
  dsimp only
  rw [hrest]
  have hrestlen : (d.rows.take (r + 1) ++ d.rows.drop (r + 1 + 1)).length =
      d.rows.length - 1 := by
    simp [List.length_take]
    omega
  refine ⟨_, rfl, ?_, rfl, ?_⟩
  · simp only [List.length_set, hrestlen]
    omega
  · intro ha hb
    rw [Document.row_content_get? d r row hrow] at ha
    rw [Document.row_content_get? d (r + 1) next hnext] at hb
    have hbound : r < (d.rows.take (r + 1) ++ d.rows.drop (r + 1 + 1)).length := by
      rw [hrestlen]
      omega
    have hget : ((d.rows.take (r + 1) ++ d.rows.drop (r + 1 + 1)).set r
        (Row.update_len { row with content := row.content ++ next.content })).get? r =
        some (Row.update_len { row with content := row.content ++ next.content }) := by
      rw [List.get?_eq_getElem?]
      simp only [List.getElem?_set_eq_of_lt _ hbound]
    rw [Document.row_len_get? _ r _ hget, hrl, hrlnext]
    have hall : ∀ c ∈ row.content ++ next.content, c.toNat < 128 := by
      intro c hm
      rcases List.mem_append.mp hm with h1 | h2
      · exact ha c h1
      · exact hb c h2
    have h1 : clusterCount row.content = row.content.length := clusterCount_ascii _ ha
    have h2 : clusterCount next.content = next.content.length := clusterCount_ascii _ hb
    simp only [Row.update_len]
    rw [clusterCount_ascii _ hall, List.length_append]
    omega

/-- Claim C5: inserting a line break at `(r, c)` with `r` in bounds splits
row `r` into two rows whose contents concatenated in order give the
original row's content, and grows `rows` by exactly one. -/
theorem insert_line_break_splits_row
    (d : Document) (r c : Nat) (hist : PositionHistory) (hr : r < d.rows.length) :
    ∃ d', d.insert { row := r, column := c, history := hist } '\n' = some d' ∧
      d'.rows.length = d.rows.length + 1 ∧
      d'.row_content r ++ d'.row_content (r + 1) = d.row_content r ∧
      d'.modified = true := by
  have hrow : d.rows.get? r = some (d.rows.get ⟨r, hr⟩) := List.get?_eq_get hr
  set row := d.rows.get ⟨r, hr⟩ with hrowdef
  have hcont : d.row_content r = row.content := Document.row_content_get? d r row hrow
  unfold Document.insert Document.insert_new_line
  rw [if_pos rfl, hrow]
  dsimp only
  have hsetlen : r + 1 ≤ (d.rows.set r (row.split c).1).length := by
    simp [List.length_set]
    omega
  refine ⟨_, rfl, ?_, ?_, rfl⟩
  · rw [vecInsert_length _ _ _ hsetlen]
    simp
  · have h1 : (vecInsert (d.rows.set r (row.split c).1) (r + 1) (row.split c).2).get? r =
        some (row.split c).1 := by
      rw [vecInsert_get?_lt _ _ _ _ (Nat.lt_succ_self r) hsetlen,
        List.get?_eq_getElem?]
      simp [List.getElem?_set_eq_of_lt _ (by simpa using hr)]
    have h2 : (vecInsert (d.rows.set r (row.split c).1) (r + 1) (row.split c).2).get?
        (r + 1) = some (row.split c).2 := vecInsert_get?_self _ _ _ hsetlen
    rw [Document.row_content_get? _ r _ h1, Document.row_content_get? _ (r + 1) _ h2,
      hcont]
    simp only [Row.split, Row.update_len, Row.ofContent]
    exact takeClusters_append_dropClusters c row.content

/-- Claim C8: whenever `move_up` or `move_down` returns and has changed
the cursor row, the new column is the minimum of the sticky column
(`position.history.column`, which vertical moves never modify) and the
cluster count of the new row. -/
theorem vertical_move_column_is_sticky_min (e : Editor) (b : Boundaries) (offset : Nat) :
    (∀ e', e.move_up b offset = some e' → e'.position.row ≠ e.position.row →
      e'.position.column =
        min e.position.history.column (e.document.row_len e'.position.row)) ∧
    (∀ e', e.move_down b offset = some e' → e'.position.row ≠ e.position.row →
      e'.position.column =
        min e.position.history.column (e.document.row_len e'.position.row)) := by
  constructor
  · intro e' h hne
    unfold Editor.move_up at h
    dsimp only at h
    split at h
    · cases hcs : checkedSub e.position.row offset with
      | none =>
        rw [hcs] at h
        exact Option.noConfusion h
      | some new_row =>
        rw [hcs] at h
        dsimp only at h
        obtain rfl := Option.some.inj h
        rfl
    · obtain rfl := Option.some.inj h
      exact absurd rfl hne
  · intro e' h hne
    unfold Editor.move_down at h
    dsimp only at h
    split at h
    · cases hcs : checkedSub (e.scroll_offset.row + b.height) offset with
      | none =>
        rw [hcs] at h
        exact Option.noConfusion h
      | some threshold =>
        rw [hcs] at h
        dsimp only at h
        obtain rfl := Option.some.inj h
        rfl
    · obtain rfl := Option.some.inj h
      exact absurd rfl hne

/-- Claim C9 (modelled from the spec, §4.4): pressing `'i'` in Normal mode
switches the editor to Insert mode and leaves the document unchanged. -/
theorem normal_mode_i_enters_insert (e : Editor) (b : Boundaries)
    (he : e.mode = EditorMode.Normal) :
    ∃ e', e.handle_key b (Key.char 'i') = some e' ∧
      e'.mode = EditorMode.Insert ∧ e'.document = e.document := by
  obtain ⟨doc, pos, scr, st, m⟩ := e
  dsimp only at he
  subst he
  exact ⟨_, rfl, rfl, rfl⟩

/-- Claim C10: every directional move, for every boundaries and offset,
leaves the document, the editor mode, and the status unchanged whenever it
returns. -/
theorem moves_preserve_document_mode_status
    (dir : MoveDir) (e : Editor) (b : Boundaries) (offset : Nat) (e' : Editor)
    (h : Editor.moveDir dir e b offset = some e') :
    e'.document = e.document ∧ e'.mode = e.mode ∧ e'.status = e.status := by
  cases dir <;>
    simp only [Editor.moveDir, Editor.move_up, Editor.move_down, Editor.move_left,
      Editor.move_right] at h <;>
    (repeat' split at h) <;>
    first
      | exact Option.noConfusion h
      | (obtain rfl := Option.some.inj h; exact ⟨rfl, rfl, rfl⟩)

/-- Witness for claim C3 (amended): inserting `'x'` at `(0, 1)` of the
ASCII document `["ab", "cd"]` grows row 0 from 2 to 3 clusters and marks
the document modified. -/
theorem insert_printable_increases_row_len_witness :
    ∃ d', exDoc2.insert { row := 0, column := 1, history := { row := 0, column := 0 } }
        'x' = some d' ∧
      d'.row_len 0 = exDoc2.row_len 0 + 1 ∧ d'.modified = true :=
  insert_printable_increases_row_len exDoc2 0 1 { row := 0, column := 0 } 'x'
    (by decide) (by decide) (by decide) (by decide) (by decide) (by decide)

/-- Witness for claim C4 (amended): deleting at `(0, 2)` of the ASCII
document `["ab", "cd"]` merges the rows into `["abcd"]`, whose count is
the sum `2 + 2`. -/
theorem delete_at_row_end_merges_witness :
    ∃ d', exDoc2.delete
        { row := 0
          column := exDoc2.row_len 0
          history := { row := 0, column := 0 } } = some d' ∧
      d'.rows.length + 1 = exDoc2.rows.length ∧
      d'.modified = true ∧
      ((∀ c ∈ exDoc2.row_content 0, c.toNat < 128) →
        (∀ c ∈ exDoc2.row_content 1, c.toNat < 128) →
        d'.row_len 0 = exDoc2.row_len 0 + exDoc2.row_len 1) :=
  delete_at_row_end_merges exDoc2 0 { row := 0, column := 0 } (by decide) (by decide)

/-- Witness for claim C5: breaking the line at `(0, 1)` of `["ab", "cd"]`
yields three rows with row 0 and row 1 concatenating back to `"ab"`. -/
theorem insert_line_break_splits_row_witness :
    ∃ d', exDoc2.insert { row := 0, column := 1, history := { row := 0, column := 0 } }
        '\n' = some d' ∧
      d'.rows.length = exDoc2.rows.length + 1 ∧
      d'.row_content 0 ++ d'.row_content 1 = exDoc2.row_content 0 ∧
      d'.modified = true :=
  insert_line_break_splits_row exDoc2 0 1 { row := 0, column := 0 } (by decide)

/-- Witness for claim C8: moving up from row 1 of `["ab", "cd"]` with
sticky column 1 lands on row 0 with column `min 1 2 = 1`. -/
theorem vertical_move_column_is_sticky_min_witness :
    exEditor2Up.position.column =
      min exEditor2.position.history.column
        (exEditor2.document.row_len exEditor2Up.position.row) :=
  (vertical_move_column_is_sticky_min exEditor2 exB1 1).1 exEditor2Up
    (by decide) (by decide)

/-- Witness for claim C9: the concrete Normal-mode state `exEditor2`
switches to Insert mode on `'i'` with its document untouched. -/
theorem normal_mode_i_enters_insert_witness :
    ∃ e', exEditor2.handle_key exB1 (Key.char 'i') = some e' ∧
      e'.mode = EditorMode.Insert ∧ e'.document = exEditor2.document :=
  normal_mode_i_enters_insert exEditor2 exB1 rfl

/-- Witness for claim C10: `move_up` on `exEditor2` keeps its document,
mode and status. -/
theorem moves_preserve_document_mode_status_witness :
    exEditor2Up.document = exEditor2.document ∧ exEditor2Up.mode = exEditor2.mode ∧
      exEditor2Up.status = exEditor2.status :=
  moves_preserve_document_mode_status MoveDir.up exEditor2 exB1 1 exEditor2Up (by decide)

end Wind
